import Mathlib

/-!
Verification of the Motzkin store web client.

This file gives a shallow embedding of the client-side logic of the
storefront UI: the fetch-based api service, the authentication and cart
stores, the searchable selector, the save-to-cart control and the toast
timer, together with theorems settling the behavioural claims made about
them. Each definition is translated from the corresponding TypeScript
source; definitions whose source file is absent from the provided tree are
marked as modelled from the specification.
-/

/- ===================== api service (services/api.ts) ===================== -/

/-- Result of calling res.json() on a response body: either the body is not
parseable JSON, or it parses and we record the optional string value of the
error field of the parsed document (none when the field is absent or not a
string). -/
inductive JsonBody where
  | parseFail
  | parsed (errorField : Option String)
deriving DecidableEq

/-- An HTTP response as the api service observes it: the ok flag and the
result of parsing its body as JSON. -/
structure HttpResponse where
  ok : Bool
  body : JsonBody
deriving DecidableEq

/-- Outcome of a fetch call: either the fetch promise itself rejects
(network or transport failure) or a response arrives. -/
inductive FetchOutcome where
  | netFail (msg : String)
  | response (res : HttpResponse)
deriving DecidableEq

/-- A thrown JavaScript value as relevant to the api service: the syntax
error produced by a failing res.json(), a constructed Error with a message,
or the rejection value of a failed fetch. -/
inductive Thrown where
  | syntaxErr
  | err (msg : String)
  | netErr (msg : String)
deriving DecidableEq

/-- res.json(): resolves with the parsed document (abstracted to its error
field) and rejects with a syntax error when the body is unparseable. -/
def resJson (res : HttpResponse) : Except Thrown (Option String) :=
  match res.body with
  | .parseFail => .error .syntaxErr
  | .parsed errorField => .ok errorField

/-- JavaScript data?.error || fallback on an optional string field:
undefined and the empty string are falsy and select the fallback. -/
def jsOr (x : Option String) (fallback : String) : String :=
  match x with
  | none => fallback
  | some s => if s = "" then fallback else s

/-- JavaScript s || fallback on a string: the empty string is falsy. -/
def jsOrStr (s fallback : String) : String :=
  if s = "" then fallback else s

/-- promise.then(f) where the handler may itself throw or reject. -/
def promThen (p : Except Thrown α) (f : α → Except Thrown β) : Except Thrown β :=
  match p with
  | .ok a => f a
  | .error e => .error e

/-- promise.catch(h) where the handler may itself throw or reject. -/
def promCatch (p : Except Thrown α) (h : Thrown → Except Thrown α) : Except Thrown α :=
  match p with
  | .ok a => .ok a
  | .error e => h e

/-- The parseError helper of services/api.ts:
res.json().then(data => \x7b throw new Error(data?.error || fallback) \x7d)
.catch(() => \x7b throw new Error(fallback) \x7d).
Note the catch is chained after the then, so it observes both a rejection of
res.json() and the error thrown inside the then handler. -/
def parseError (res : HttpResponse) (fallback : String) : Except Thrown (Option String) :=
  promCatch
    (promThen (resJson res) (fun data => .error (.err (jsOr data fallback))))
    (fun _ => .error (.err fallback))

/-- Common shape of the api functions login, logout, getCart, addToCart and
removeFromCart: await fetch; if the response is not ok, return
parseError(res, fallback); otherwise return res.json(). A rejection of the
fetch itself propagates to the caller. -/
def fetchThenParseError (fallback : String) (outcome : FetchOutcome) :
    Except Thrown (Option String) :=
  match outcome with
  | .netFail m => .error (.netErr m)
  | .response res => if res.ok then resJson res else parseError res fallback

/-- Common shape of the api functions checkAuth and clearCart: on a non-ok
response the message is built inline, let message := fallback; try
\x7b data := await res.json(); message := data?.error || message \x7d
catch \x7b\x7d; throw new Error(message). Here the parse failure is the only
thing the catch observes, so a parsed error field does reach the thrown
error. -/
def fetchThenInlineParse (fallback : String) (outcome : FetchOutcome) :
    Except Thrown (Option String) :=
  match outcome with
  | .netFail m => .error (.netErr m)
  | .response res =>
    if res.ok then resJson res
    else
      match res.body with
      | .parseFail => .error (.err fallback)
      | .parsed errorField => .error (.err (jsOr errorField fallback))

/-- api.login with its fallback message. -/
def Api.login (outcome : FetchOutcome) : Except Thrown (Option String) :=
  fetchThenParseError "Login failed" outcome

/-- api.logout with its fallback message. -/
def Api.logout (outcome : FetchOutcome) : Except Thrown (Option String) :=
  fetchThenParseError "Logout failed" outcome

/-- api.checkAuth with its fallback message (inline variant). -/
def Api.checkAuth (outcome : FetchOutcome) : Except Thrown (Option String) :=
  fetchThenInlineParse "Not authenticated" outcome

/-- api.getCart with its fallback message. -/
def Api.getCart (outcome : FetchOutcome) : Except Thrown (Option String) :=
  fetchThenParseError "Failed to fetch cart" outcome

/-- api.addToCart with its fallback message. -/
def Api.addToCart (outcome : FetchOutcome) : Except Thrown (Option String) :=
  fetchThenParseError "Failed to add to cart" outcome

/-- api.removeFromCart with its fallback message. -/
def Api.removeFromCart (outcome : FetchOutcome) : Except Thrown (Option String) :=
  fetchThenParseError "Failed to remove from cart" outcome

/-- api.clearCart with its fallback message (inline variant). -/
def Api.clearCart (outcome : FetchOutcome) : Except Thrown (Option String) :=
  fetchThenInlineParse "Failed to clear cart" outcome

/-- The catch inside parseError also intercepts the error thrown by its own
then handler, so every call of parseError rejects with the fixed fallback,
whatever the parsed body said. -/
theorem parseError_always_fallback (res : HttpResponse) (fallback : String) :
    parseError res fallback = .error (.err fallback) := by
  unfold parseError promCatch promThen resJson
  cases res.body with
  | parseFail => rfl
  | parsed errorField => rfl

/-- C1: evaluation at the failing input. api.addToCart receiving a non-ok
response whose parseable JSON body carries the message "out of stock"
nevertheless throws the fixed fallback "Failed to add to cart", so the
parsed message is discarded; api.clearCart, whose error path parses inline,
does propagate the parsed message. The claim that every operation throws
the parsed message therefore fails on the operations routed through
parseError. -/
theorem addToCart_nonOk_parsed_body_throws_fallback :
    Api.addToCart (.response { ok := false, body := .parsed (some "out of stock") })
      = .error (.err "Failed to add to cart") ∧
    Api.login (.response { ok := false, body := .parsed (some "Invalid credentials") })
      = .error (.err "Login failed") ∧
    Api.clearCart (.response { ok := false, body := .parsed (some "cart locked") })
      = .error (.err "cart locked") := by
  refine ⟨rfl, rfl, rfl⟩

/- ============== session store (contexts/AuthContext.tsx) ============== -/

/-- The state held by AuthProvider: the authentication flag, the loading
flag of the initial checkAuth probe, and the stored login error message. -/
structure AuthState where
  isAuthenticated : Bool
  isLoading : Bool
  error : Option String
deriving DecidableEq

/-- The logout handler of AuthContext: setError(null); try await
api.logout() with the failure ignored; then setIsAuthenticated(false)
unconditionally. -/
def AuthCtx.logout (st : AuthState) (outcome : FetchOutcome) : AuthState :=
  let afterCall :=
    match Api.logout outcome with
    | .ok _ => { st with error := none }
    | .error _ => { st with error := none }
  { afterCall with isAuthenticated := false }

/-- C3: for every outcome of the underlying logout api call, success,
thrown HTTP error or network rejection alike, the session state after
logout() is unauthenticated. -/
theorem logout_always_unauthenticated (st : AuthState) (outcome : FetchOutcome) :
    (AuthCtx.logout st outcome).isAuthenticated = false := by
  unfold AuthCtx.logout
  cases Api.logout outcome with
  | ok v => rfl
  | error e => rfl

/- =============== cart store (contexts/CartContext.tsx) =============== -/

/-- A school, grade or class reference: an id and a display name. -/
structure NamedRef where
  id : Int
  name : String
deriving DecidableEq

/-- A cart item: equipment id, display name and requested quantity. -/
structure CartItem where
  id : Int
  name : String
  quantity : Int
deriving DecidableEq

/-- A saved cart entry as returned by the server: server-assigned id and
timestamp plus the selection. The source field named class is rendered here
as classRef, class being reserved in Lean. -/
structure CartEntry where
  id : String
  timestamp : Int
  school : NamedRef
  grade : NamedRef
  classRef : NamedRef
  items : List CartItem
deriving DecidableEq

/-- The state held by CartProvider: the entry list, the loading flag of the
initial fetch, and the stored error message. -/
structure CartState where
  cartEntries : List CartEntry
  loading : Bool
  error : Option String
deriving DecidableEq

/-- The fetchCart callback of CartContext, also exposed as refreshCart:
setLoading(true); setError(null); try setCartEntries(await api.getCart())
catch setError(err.message || fallback) and setCartEntries([]); finally
setLoading(false). The awaited api call is abstracted to its resolved
entry list or its rejection message. -/
def CartCtx.fetchCart (st : CartState) (r : Except String (List CartEntry)) : CartState :=
  match r with
  | .ok data => { st with cartEntries := data, error := none, loading := false }
  | .error msg =>
      { st with
        error := some (jsOrStr msg "Failed to fetch cart"),
        cartEntries := [],
        loading := false }

/-- The addToCart callback of CartContext: setError(null); try append the
server-returned entry to the list; catch setError(err.message || fallback).
The second component is the outcome of the promise the async callback
returns to its awaiter: the catch swallows every failure and nothing is
rethrown, so it always resolves. -/
def CartCtx.addToCart (st : CartState) (r : Except String CartEntry) :
    CartState × Except String Unit :=
  match r with
  | .ok newEntry =>
      ({ st with error := none, cartEntries := st.cartEntries ++ [newEntry] }, .ok ())
  | .error msg =>
      ({ st with error := some (jsOrStr msg "Failed to add to cart") }, .ok ())

/-- The removeFromCart callback of CartContext: setError(null); try await
api.removeFromCart(id) then filter the entry with that id out of the list;
catch setError(err.message || fallback). Nothing is rethrown. -/
def CartCtx.removeFromCart (st : CartState) (id : String) (r : Except String Unit) :
    CartState × Except String Unit :=
  match r with
  | .ok _ =>
      ({ st with
         error := none,
         cartEntries := st.cartEntries.filter (fun entry => entry.id != id) }, .ok ())
  | .error msg =>
      ({ st with error := some (jsOrStr msg "Failed to remove from cart") }, .ok ())

/-- The clearCart callback of CartContext: setError(null); try await
api.clearCart() then setCartEntries([]); catch setError(err.message ||
fallback). Nothing is rethrown. -/
def CartCtx.clearCart (st : CartState) (r : Except String Unit) :
    CartState × Except String Unit :=
  match r with
  | .ok _ => ({ st with error := none, cartEntries := [] }, .ok ())
  | .error msg =>
      ({ st with error := some (jsOrStr msg "Failed to clear cart") }, .ok ())

/-- A sample cart entry used to instantiate the cart store theorems. -/
def sampleEntry : CartEntry :=
  { id := "e1", timestamp := 5,
    school := { id := 1, name := "School A" },
    grade := { id := 1, name := "Grade 1" },
    classRef := { id := 3, name := "Class B" },
    items := [{ id := 1, name := "Notebook", quantity := 5 }] }

/-- A sample cart store state with one cached entry. -/
def sampleCartState : CartState :=
  { cartEntries := [sampleEntry], loading := false, error := none }

/-- C2: for every prior entry list, when the addToCart api call rejects the
entry list after the store operation is unchanged and the error field holds
the failure message, and when it resolves the server-returned entry is
appended at the end of the list. The message is assumed nonempty; an empty
message is falsy in JavaScript and is replaced by the fixed fallback. -/
theorem cart_addToCart_spec (st : CartState) (msg : String) (e : CartEntry)
    (h : msg ≠ "") :
    (CartCtx.addToCart st (.error msg)).1.cartEntries = st.cartEntries ∧
    (CartCtx.addToCart st (.error msg)).1.error = some msg ∧
    (CartCtx.addToCart st (.ok e)).1.cartEntries = st.cartEntries ++ [e] := by
  refine ⟨rfl, ?_, rfl⟩
  simp [CartCtx.addToCart, jsOrStr, h]

/-- Closed instance of the addToCart theorem at a concrete store state,
failure message and entry. -/
theorem cart_addToCart_spec_witness :
    (CartCtx.addToCart sampleCartState (.error "server down")).1.cartEntries
        = sampleCartState.cartEntries ∧
    (CartCtx.addToCart sampleCartState (.error "server down")).1.error
        = some "server down" ∧
    (CartCtx.addToCart sampleCartState (.ok sampleEntry)).1.cartEntries
        = sampleCartState.cartEntries ++ [sampleEntry] :=
  cart_addToCart_spec sampleCartState "server down" sampleEntry (by decide)

/-- C9: a failed fetchCart (equally refreshCart) discards the cached entry
list, setting it to empty, stores the failure message in the error field and
ends with loading false; it does not leave the list unchanged the way the
mutation operations do. The message is assumed nonempty; an empty message is
falsy in JavaScript and is replaced by the fixed fallback. -/
theorem cart_fetchCart_failure_clears_entries (st : CartState) (msg : String)
    (h : msg ≠ "") :
    (CartCtx.fetchCart st (.error msg)).cartEntries = [] ∧
    (CartCtx.fetchCart st (.error msg)).error = some msg ∧
    (CartCtx.fetchCart st (.error msg)).loading = false := by
  refine ⟨rfl, ?_, rfl⟩
  simp [CartCtx.fetchCart, jsOrStr, h]

/-- Closed instance of the fetchCart failure theorem at a concrete store
state whose cache is nonempty, showing the cached entry is discarded. -/
theorem cart_fetchCart_failure_clears_entries_witness :
    (CartCtx.fetchCart sampleCartState (.error "gateway timeout")).cartEntries = [] ∧
    (CartCtx.fetchCart sampleCartState (.error "gateway timeout")).error
        = some "gateway timeout" ∧
    (CartCtx.fetchCart sampleCartState (.error "gateway timeout")).loading = false :=
  cart_fetchCart_failure_clears_entries sampleCartState "gateway timeout" (by decide)

/-- C10: the promises returned by the addToCart, removeFromCart and
clearCart store operations resolve for every outcome of the underlying api
call; their catch blocks swallow the failure without rethrowing, so an
awaiting caller observes the same resolved unit value in the success and the
failure case and can only learn of a failure from the error field. -/
theorem cart_mutations_never_reject (st : CartState) (id : String)
    (r₁ : Except String CartEntry) (r₂ r₃ : Except String Unit) :
    (CartCtx.addToCart st r₁).2 = .ok () ∧
    (CartCtx.removeFromCart st id r₂).2 = .ok () ∧
    (CartCtx.clearCart st r₃).2 = .ok () := by
  refine ⟨?_, ?_, ?_⟩
  · cases r₁ with
    | ok v => rfl
    | error m => rfl
  · cases r₂ with
    | ok v => rfl
    | error m => rfl
  · cases r₃ with
    | ok v => rfl
    | error m => rfl

/- ========= searchable selector (components/SearchableSelect.tsx) ========= -/

/-- The id of a selectable item: the source type is string | number. -/
inductive SelectId where
  | str (s : String)
  | num (n : Int)
deriving DecidableEq

/-- A selectable item as the dropdown sees it: a stable id and the display
name; further fields of the source index signature play no role here. -/
structure SelectItem where
  id : SelectId
  name : String
deriving DecidableEq

/-- JavaScript s.toLowerCase(), rendered as the lowered character sequence
of the string. -/
def jsToLower (s : String) : List Char :=
  s.data.map Char.toLower

/-- Whether the first list is an initial segment of the second. -/
def startsWithB : List Char → List Char → Bool
  | [], _ => true
  | _ :: _, [] => false
  | a :: as, b :: bs => a == b && startsWithB as bs

/-- Whether the needle occurs contiguously somewhere in the list, checked at
every start position; the recursion mirrors the search JavaScript includes
performs. -/
def containsSub (needle : List Char) : List Char → Bool
  | [] => startsWithB needle []
  | c :: rest => startsWithB needle (c :: rest) || containsSub needle rest

/-- JavaScript hay.includes(needle) on lowered character sequences. -/
def jsIncludes (hay needle : List Char) : Bool :=
  containsSub needle hay

/-- The filteredItems value of SearchableSelect:
items.filter(item => item.name.toLowerCase().includes(query.toLowerCase())),
the list the dropdown renders. -/
def filteredItems (items : List SelectItem) (query : String) : List SelectItem :=
  items.filter (fun item => jsIncludes (jsToLower item.name) (jsToLower query))

/-- The needle occurs as a contiguous substring of the hay. -/
def SubstringOf (needle hay : List Char) : Prop :=
  ∃ pre post, hay = pre ++ needle ++ post

theorem startsWithB_iff (n h : List Char) :
    startsWithB n h = true ↔ ∃ t, h = n ++ t := by
  induction n generalizing h with
  | nil =>
    simp [startsWithB]
  | cons a as ih =>
    cases h with
    | nil => simp [startsWithB]
    | cons b bs =>
      simp only [startsWithB, Bool.and_eq_true, beq_iff_eq, ih,
        List.cons_append, List.cons.injEq]
      constructor
      · rintro ⟨hab, t, ht⟩
        exact ⟨t, hab.symm, ht⟩
      · rintro ⟨t, hab, ht⟩
        exact ⟨hab.symm, t, ht⟩

theorem substringOf_cons (n : List Char) (c : Char) (rest : List Char) :
    SubstringOf n (c :: rest) ↔ (∃ t, c :: rest = n ++ t) ∨ SubstringOf n rest := by
  constructor
  · rintro ⟨pre, post, heq⟩
    cases pre with
    | nil =>
      left
      exact ⟨post, by simpa using heq⟩
    | cons p ps =>
      right
      rw [List.cons_append, List.cons_append] at heq
      injection heq with hc hrest
      exact ⟨ps, post, hrest⟩
  · rintro (⟨t, ht⟩ | ⟨pre, post, heq⟩)
    · exact ⟨[], t, by simpa using ht⟩
    · exact ⟨c :: pre, post, by simp [heq]⟩

theorem containsSub_iff (n h : List Char) :
    containsSub n h = true ↔ SubstringOf n h := by
  induction h with
  | nil =>
    simp only [containsSub, startsWithB_iff, SubstringOf]
    constructor
    · rintro ⟨t, ht⟩
      exact ⟨[], t, by simpa using ht⟩
    · rintro ⟨pre, post, hval⟩
      refine ⟨post, ?_⟩
      rcases List.append_eq_nil.mp ((List.append_assoc pre n post ▸ hval).symm)
        with ⟨hpre, hrest⟩
      simp [hpre] at hval
      simpa using hval
  | cons c rest ih =>
    simp only [containsSub, Bool.or_eq_true, startsWithB_iff, ih,
      substringOf_cons n c rest]

instance (n h : List Char) : Decidable (SubstringOf n h) :=
  decidable_of_iff (containsSub n h = true) (containsSub_iff n h)

theorem decide_substringOf (n h : List Char) :
    decide (SubstringOf n h) = containsSub n h := by
  by_cases hs : SubstringOf n h
  · simp [hs, (containsSub_iff n h).mpr hs]
  · have hfalse : containsSub n h = false :=
      Bool.eq_false_iff.mpr (fun hc => hs ((containsSub_iff n h).mp hc))
    simp [hs, hfalse]

/-- C4: for every candidate list and query, the list of matches the selector
displays equals the filter of the candidate list by the case-insensitive
substring test of the query against each display name, and is a sublist of
the candidate list, hence a subsequence in its original order. -/
theorem selector_filteredItems_spec (L : List SelectItem) (q : String) :
    filteredItems L q
      = L.filter (fun item => decide (SubstringOf (jsToLower q) (jsToLower item.name))) ∧
    List.Sublist (filteredItems L q) L := by
  constructor
  · unfold filteredItems jsIncludes
    congr 1
    funext item
    rw [decide_substringOf]
  · exact List.filter_sublist L

/-- The internal state of SearchableSelect: the current items prop, the
query text, the open flag of the dropdown and the selected item. -/
structure SelState where
  items : List SelectItem
  query : String
  isOpen : Bool
  selectedItem : Option SelectItem
deriving DecidableEq

/-- The events that drive SearchableSelect: the parent passing a new items
array (which reruns the effect keyed on [items]), typing in the input,
focusing it, the delayed blur close firing, and choosing a row. -/
inductive SelEvent where
  | newItems (l : List SelectItem)
  | typeQuery (s : String)
  | focus (disabled : Bool)
  | blurTimeout
  | select (item : SelectItem)
deriving DecidableEq

/-- One step of SearchableSelect. newItems runs the reset effect, clearing
the query and the selection; typing updates the query and opens the list;
focus opens it unless disabled; the delayed blur close closes it;
handleSelect records the item, copies its name into the query, closes the
list and (outside this state) notifies the parent. -/
def selStep (st : SelState) : SelEvent → SelState
  | .newItems l => { st with items := l, query := "", selectedItem := none }
  | .typeQuery s => { st with query := s, isOpen := true }
  | .focus disabled => if disabled then st else { st with isOpen := true }
  | .blurTimeout => { st with isOpen := false }
  | .select item =>
      { st with selectedItem := some item, query := item.name, isOpen := false }

/-- C5: whenever the caller supplies a new candidate list, the query text is
reset to empty and the selection is cleared, for every prior state, while
the open flag is left as it was; the reset does not inspect the prior query,
selection or list. -/
theorem selector_newItems_resets (st : SelState) (l : List SelectItem) :
    (selStep st (.newItems l)).query = "" ∧
    (selStep st (.newItems l)).selectedItem = none ∧
    (selStep st (.newItems l)).items = l ∧
    (selStep st (.newItems l)).isOpen = st.isOpen :=
  ⟨rfl, rfl, rfl, rfl⟩

/- ========== save-to-cart control (components/SaveToCartButton.tsx) ========== -/

/-- The payload sent to api.addToCart: the chosen school and grade and the
requested items. -/
structure CartEntryPayload where
  school : NamedRef
  grade : NamedRef
  items : List CartItem
deriving DecidableEq

/-- Modelled from the spec: the source of components/SaveToCartButton.tsx is
not among the provided files, only its tests are; the inputs of the control
are the chosen school and grade (absent while unselected), the set of
selected item ids, the map of per-item quantities, and the equipment item
list. -/
structure SaveToCartProps where
  school : Option NamedRef
  grade : Option NamedRef
  selectedIds : List Int
  quantities : List (Int × Int)
  items : List CartItem
deriving DecidableEq

/-- Modelled from the spec: a quantity lookup in the quantities map; an id
missing from the map counts as zero, matching the policy that an item
without a requested quantity is not requested. -/
def qtyOf (quantities : List (Int × Int)) (id : Int) : Int :=
  (quantities.lookup id).getD 0

/-- Modelled from the spec: the items that participate in the save-to-cart
payload are exactly those that are both selected and carry a quantity
strictly greater than zero; selected items left at zero are dropped. -/
def qualifyingItems (p : SaveToCartProps) : List CartItem :=
  p.items.filter
    (fun i => p.selectedIds.contains i.id && decide (0 < qtyOf p.quantities i.id))

/-- Modelled from the spec: the payload built on click carries the chosen
school and grade and the qualifying items, each with its quantity taken from
the quantities map. -/
def buildPayload (school grade : NamedRef) (p : SaveToCartProps) : CartEntryPayload :=
  { school := school, grade := grade,
    items := (qualifyingItems p).map
      (fun i => { id := i.id, name := i.name, quantity := qtyOf p.quantities i.id }) }

/-- Modelled from the spec and the component tests: the save control is
disabled when the school or the grade is absent, when no item qualifies,
when the caller passes the disabled prop, or during the transient post-save
confirmation window. -/
def saveDisabled (p : SaveToCartProps) (disabledProp : Bool) (justSaved : Bool) : Bool :=
  p.school.isNone || p.grade.isNone || (qualifyingItems p).isEmpty
    || disabledProp || justSaved

theorem isNone_false_iff (x : Option α) : x.isNone = false ↔ ∃ a, x = some a := by
  cases x with
  | none => simp
  | some a => simp

theorem qualifyingItems_isEmpty_false_iff (p : SaveToCartProps) :
    (qualifyingItems p).isEmpty = false ↔
      ∃ i ∈ p.items, i.id ∈ p.selectedIds ∧ 0 < qtyOf p.quantities i.id := by
  simp only [qualifyingItems, List.isEmpty_eq_false, ne_eq, List.filter_eq_nil_iff,
    Bool.and_eq_true, List.contains, List.elem_iff, decide_eq_true_eq, not_forall,
    not_not, exists_prop, not_and]

/-- C6: a cart item is in the built payload exactly when it arises from an
equipment item that is selected and has positive quantity in the quantities
map, carrying that quantity; in particular selected items of quantity zero
contribute nothing. -/
theorem save_payload_items_exact (s g : NamedRef) (p : SaveToCartProps) (x : CartItem) :
    x ∈ (buildPayload s g p).items ↔
      ∃ i ∈ p.items, i.id ∈ p.selectedIds ∧ 0 < qtyOf p.quantities i.id ∧
        x = { id := i.id, name := i.name, quantity := qtyOf p.quantities i.id } := by
  simp only [buildPayload, qualifyingItems, List.mem_map, List.mem_filter,
    Bool.and_eq_true, List.contains, List.elem_iff, decide_eq_true_eq]
  constructor
  · rintro ⟨i, ⟨hmem, hsel, hqty⟩, hx⟩
    exact ⟨i, hmem, hsel, hqty, hx.symm⟩
  · rintro ⟨i, hmem, hsel, hqty, hx⟩
    exact ⟨i, ⟨hmem, hsel, hqty⟩, hx.symm⟩

/-- Props for the save control with a school, a grade and a qualifying
selected item all present, used to exhibit the extra disable conditions. -/
def sampleSaveProps : SaveToCartProps :=
  { school := some { id := 1, name := "School A" },
    grade := some { id := 1, name := "Grade 1" },
    selectedIds := [1, 2],
    quantities := [(1, 5), (2, 10), (3, 2)],
    items :=
      [{ id := 1, name := "Notebook", quantity := 5 },
       { id := 2, name := "Pencil", quantity := 10 },
       { id := 3, name := "Eraser", quantity := 2 }] }

/-- C7 counterexample: a school, a grade and a qualifying item are all
present, yet the control is disabled when the caller passes the disabled
prop, and likewise during the post-save confirmation window; so the three
stated conditions are not the only ones under which the control is
disabled, and their absence does not make it enabled. -/
theorem save_disabled_extra_conditions :
    sampleSaveProps.school.isSome = true ∧
    sampleSaveProps.grade.isSome = true ∧
    (qualifyingItems sampleSaveProps).isEmpty = false ∧
    saveDisabled sampleSaveProps true false = true ∧
    saveDisabled sampleSaveProps false true = true := by
  refine ⟨rfl, rfl, ?_, ?_, ?_⟩ <;> decide

/-- C7 amended: the save control is disabled precisely unless a school is
chosen, a grade is chosen, some item is both selected and of positive
quantity, the caller has not passed the disabled prop, and the control is
not inside its transient post-save confirmation window. -/
theorem save_disabled_iff (p : SaveToCartProps) (disabledProp justSaved : Bool) :
    saveDisabled p disabledProp justSaved = false ↔
      (∃ s, p.school = some s) ∧ (∃ g, p.grade = some g) ∧
      (∃ i ∈ p.items, i.id ∈ p.selectedIds ∧ 0 < qtyOf p.quantities i.id) ∧
      disabledProp = false ∧ justSaved = false := by
  unfold saveDisabled
  simp only [Bool.or_eq_false_iff, isNone_false_iff, qualifyingItems_isEmpty_false_iff,
    and_assoc]

/- ================= toast timer (components/Toast.tsx) ================= -/

/-- The observable state of a mounted Toast: whether it is still mounted,
the current isVisible and duration props, the pending auto-close timer (as
the absolute time at which it would fire), and how many times onClose has
been invoked. The effect that keeps the onClose ref current only changes
which function is called, never whether it is called, so the callback is
abstracted to the invocation count. -/
structure ToastState where
  mounted : Bool
  isVisible : Bool
  duration : Nat
  timer : Option Nat
  closeCalls : Nat
deriving DecidableEq

/-- The events that drive Toast: a re-render with (possibly) new props at a
given time, the clock reaching a given time, and unmounting. -/
inductive ToastEvent where
  | setProps (isVisible : Bool) (duration : Nat) (now : Nat)
  | tick (now : Nat)
  | unmount
deriving DecidableEq

/-- One step of Toast. The timer effect has dependency list [isVisible,
duration]: a re-render with unchanged dependencies leaves the pending timer
alone; changed dependencies first run the cleanup, clearing the pending
timer, then schedule onClose after duration when isVisible, and nothing
otherwise. A tick fires a due timer, invoking onClose once and clearing it.
Unmounting runs the cleanup, so no timer survives it; an unmounted
component processes no further events. -/
def toastStep (st : ToastState) (e : ToastEvent) : ToastState :=
  if st.mounted = false then st
  else
    match e with
    | .setProps vis dur now =>
      if vis = st.isVisible ∧ dur = st.duration then st
      else
        { st with isVisible := vis, duration := dur,
                  timer := if vis then some (now + dur) else none }
    | .tick now =>
      match st.timer with
      | some f =>
        if f ≤ now then { st with timer := none, closeCalls := st.closeCalls + 1 }
        else st
      | none => st
    | .unmount => { st with mounted := false, timer := none }

/-- Run of a sequence of toast events. -/
def runToast (st : ToastState) : List ToastEvent → ToastState
  | [] => st
  | e :: rest => runToast (toastStep st e) rest

/-- Run of a sequence of clock ticks. -/
def runTicks (st : ToastState) : List Nat → ToastState
  | [] => st
  | t :: rest => runTicks (toastStep st (.tick t)) rest

/-- Whether an event makes the toast visible. -/
def isShow : ToastEvent → Bool
  | .setProps vis _ _ => vis
  | .tick _ => false
  | .unmount => false

/-- Whether an event hides or unmounts the toast. -/
def isHideOrUnmount : ToastEvent → Bool
  | .setProps vis _ _ => !vis
  | .tick _ => false
  | .unmount => true

/-- States reachable by the component: a pending timer exists only while
the toast is visible and mounted. -/
def ToastInv (st : ToastState) : Prop :=
  st.timer = none ∨ (st.isVisible = true ∧ st.mounted = true)

/-- The state right after mounting: the timer effect has run once. -/
def mountToast (vis : Bool) (dur now : Nat) : ToastState :=
  { mounted := true, isVisible := vis, duration := dur,
    timer := if vis then some (now + dur) else none, closeCalls := 0 }

theorem toastStep_tick_noop (st : ToastState) (t : Nat) (ht : st.timer = none) :
    toastStep st (.tick t) = st := by
  by_cases hm : st.mounted = false
  · simp [toastStep, hm]
  · simp [toastStep, hm, ht]

theorem toastStep_hide_quiet (st : ToastState) (e : ToastEvent) (hinv : ToastInv st)
    (he : isHideOrUnmount e = true) :
    (toastStep st e).timer = none ∧ (toastStep st e).closeCalls = st.closeCalls := by
  have hnone_of_unmounted : st.mounted = false → st.timer = none := by
    intro hm
    rcases hinv with h | ⟨_, hm2⟩
    · exact h
    · rw [hm] at hm2
      exact absurd hm2 (by simp)
  cases e with
  | setProps vis dur now =>
    have hv : vis = false := by simpa [isHideOrUnmount] using he
    subst hv
    by_cases hm : st.mounted = false
    · simp [toastStep, hm, hnone_of_unmounted hm]
    · by_cases hd : (st.isVisible = false ∧ dur = st.duration)
      · have hvnone : st.timer = none := by
          rcases hinv with h | ⟨hv2, _⟩
          · exact h
          · rw [hv2] at hd
            exact absurd hd.1 (by simp)
        simp [toastStep, hm, hd, hvnone]
      · simp [toastStep, hm, hd]
  | tick now => simp [isHideOrUnmount] at he
  | unmount =>
    by_cases hm : st.mounted = false
    · simp [toastStep, hm, hnone_of_unmounted hm]
    · simp [toastStep, hm]

theorem runToast_no_show_quiet (evs : List ToastEvent) :
    ∀ st : ToastState, st.timer = none → (∀ e ∈ evs, isShow e = false) →
      (runToast st evs).closeCalls = st.closeCalls ∧ (runToast st evs).timer = none := by
  induction evs with
  | nil => exact fun st ht _ => ⟨rfl, ht⟩
  | cons e rest ih =>
    intro st ht hno
    have he : isShow e = false := hno e (List.mem_cons_self e rest)
    have hstep : (toastStep st e).closeCalls = st.closeCalls ∧
        (toastStep st e).timer = none := by
      cases e with
      | setProps vis dur now =>
        have hv : vis = false := by simpa [isShow] using he
        subst hv
        by_cases hm : st.mounted = false
        · simp [toastStep, hm, ht]
        · by_cases hd : (st.isVisible = false ∧ dur = st.duration)
          · simp [toastStep, hm, hd, ht]
          · simp [toastStep, hm, hd]
      | tick now => simp [toastStep_tick_noop st now ht, ht]
      | unmount =>
        by_cases hm : st.mounted = false
        · simp [toastStep, hm, ht]
        · simp [toastStep, hm]
    have hrest := ih (toastStep st e) hstep.2
      (fun x hx => hno x (List.mem_cons_of_mem e hx))
    rw [runToast]
    exact ⟨hrest.1.trans hstep.1, hrest.2⟩

theorem runTicks_quiet (ts : List Nat) :
    ∀ st : ToastState, st.timer = none →
      (runTicks st ts).closeCalls = st.closeCalls ∧ (runTicks st ts).timer = none := by
  induction ts with
  | nil => exact fun st ht => ⟨rfl, ht⟩
  | cons t rest ih =>
    intro st ht
    rw [runTicks, toastStep_tick_noop st t ht]
    exact ih st ht

theorem runTicks_fire (ts : List Nat) :
    ∀ (st : ToastState) (f : Nat), st.mounted = true → st.timer = some f →
      ((∀ t ∈ ts, t < f) → runTicks st ts = st) ∧
      ((∃ t ∈ ts, f ≤ t) → (runTicks st ts).closeCalls = st.closeCalls + 1) := by
  induction ts with
  | nil =>
    intro st f hm ht
    exact ⟨fun _ => rfl, fun hex => absurd hex (by simp)⟩
  | cons t rest ih =>
    intro st f hm ht
    constructor
    · intro hall
      have hlt : t < f := hall t (List.mem_cons_self t rest)
      have hstep : toastStep st (.tick t) = st := by
        simp [toastStep, hm, ht, Nat.not_le.mpr hlt]
      rw [runTicks, hstep]
      exact (ih st f hm ht).1 (fun x hx => hall x (List.mem_cons_of_mem t hx))
    · intro hex
      by_cases hft : f ≤ t
      · have hstep : toastStep st (.tick t) =
            { st with timer := none, closeCalls := st.closeCalls + 1 } := by
          simp [toastStep, hm, ht, hft]
        rw [runTicks, hstep]
        exact (runTicks_quiet rest _ rfl).1
      · have hstep : toastStep st (.tick t) = st := by
          simp [toastStep, hm, ht, hft]
        rw [runTicks, hstep]
        rcases hex with ⟨x, hx, hfx⟩
        rcases List.mem_cons.mp hx with hxt | hxrest
        · exact absurd (hxt ▸ hfx) hft
        · exact (ih st f hm ht).2 ⟨x, hxrest, hfx⟩

/-- C8: a toast shown at time t0 carries a pending timer due at t0 plus the
configured duration. First conjunct, the early-dismissal run: the clock
advances through ticks ts₁ that all precede the deadline, then the visible
flag is set false or the component unmounts (e0), cancelling the still
pending timer, and however many later non-show events arrive, ticks past
the deadline included, onClose is never invoked. Second and third
conjuncts, the toast stays visible: while every tick precedes the deadline
onClose has not been invoked, and once some tick reaches the deadline it
has been invoked exactly once, however many further ticks follow. -/
theorem toast_onClose_spec (st : ToastState) (d t0 : Nat)
    (e0 : ToastEvent) (evs : List ToastEvent) (ts₁ ts₂ : List Nat)
    (hmount : st.mounted = true) (hvis : st.isVisible = false)
    (h0 : isHideOrUnmount e0 = true) (hno : ∀ e ∈ evs, isShow e = false)
    (hearly : ∀ t ∈ ts₁, t < t0 + d) (hfire : ∃ t ∈ ts₂, t0 + d ≤ t) :
    (runToast
        (toastStep (runTicks (toastStep st (.setProps true d t0)) ts₁) e0)
        evs).closeCalls = st.closeCalls ∧
    (runTicks (toastStep st (.setProps true d t0)) ts₁).closeCalls = st.closeCalls ∧
    (runTicks (toastStep st (.setProps true d t0)) ts₂).closeCalls
      = st.closeCalls + 1 := by
  have hshow : toastStep st (.setProps true d t0) =
      { st with isVisible := true, duration := d, timer := some (t0 + d) } := by
    have hd : ¬(st.isVisible = true ∧ d = st.duration) := by
      simp [hvis]
    simp [toastStep, hmount, hd]
  have hfire₁ := runTicks_fire ts₁ (toastStep st (.setProps true d t0)) (t0 + d)
    (by rw [hshow]; exact hmount) (by rw [hshow])
  have hfire₂ := runTicks_fire ts₂ (toastStep st (.setProps true d t0)) (t0 + d)
    (by rw [hshow]; exact hmount) (by rw [hshow])
  have hA : runTicks (toastStep st (.setProps true d t0)) ts₁
      = toastStep st (.setProps true d t0) := hfire₁.1 hearly
  refine ⟨?_, ?_, ?_⟩
  · rw [hA]
    have hinvShown : ToastInv (toastStep st (.setProps true d t0)) := by
      rw [hshow]
      exact Or.inr ⟨rfl, hmount⟩
    have hhide := toastStep_hide_quiet (toastStep st (.setProps true d t0)) e0
      hinvShown h0
    have hquiet := runToast_no_show_quiet evs
      (toastStep (toastStep st (.setProps true d t0)) e0) hhide.1 hno
    rw [hquiet.1, hhide.2, hshow]
  · rw [hA, hshow]
  · rw [hfire₂.2 hfire, hshow]

/-- Closed instance of the toast theorem at duration 3000, shown at time 0:
the early-dismissal run ticks at 1000 and 2000 with the timer pending, hides
at 2500, before the deadline, and then sees ticks at 3000 and 10000 and an
unmount without onClose ever firing; the stays-visible run has not fired
after the ticks at 1000 and 2000, and has fired exactly once after ticks at
1000, 3000 and 10000, the first of which past the deadline. -/
theorem toast_onClose_spec_witness :
    (runToast
        (toastStep (runTicks (toastStep (mountToast false 3000 0)
            (.setProps true 3000 0)) [1000, 2000]) (.setProps false 3000 2500))
        [.tick 3000, .tick 10000, .unmount]).closeCalls
      = (mountToast false 3000 0).closeCalls ∧
    (runTicks (toastStep (mountToast false 3000 0) (.setProps true 3000 0))
        [1000, 2000]).closeCalls = (mountToast false 3000 0).closeCalls ∧
    (runTicks (toastStep (mountToast false 3000 0) (.setProps true 3000 0))
        [1000, 3000, 10000]).closeCalls = (mountToast false 3000 0).closeCalls + 1 :=
  toast_onClose_spec (mountToast false 3000 0) 3000 0
    (.setProps false 3000 2500) [.tick 3000, .tick 10000, .unmount]
    [1000, 2000] [1000, 3000, 10000]
    rfl rfl rfl (by decide) (by decide) (by decide)
